import Mathlib

/-!
Verification development for the `http-multiplexor` server (`src/main.go`).

The program is an HTTP server with a single handler.  The handler
acquires a slot on a system-wide semaphore (`reqSemaphore`, capacity
`MaxSimultaneousRequests = 100`), reads at most `MaxBodySize` bytes of
the request body, JSON-decodes it into a list of URLs, rejects the
request when the list has more than `MaxURLs = 20` entries, and
otherwise spawns one `fetchURL` goroutine per URL.  The goroutines share
a per-request semaphore (`urlSemaphore`, capacity
`MaxSimultaneousConnectionsPerRequest = 4`), an unbuffered error channel
`errChan`, and a wait group `wg`; a separate waiter goroutine performs
`wg.Wait()` and then sends on `finChan`.  The handler `select`s on
`errChan` and `finChan`: the first error produces a client-error
response, completion of all fetches produces a 200 response with the
JSON-encoded job list.

We embed two layers:
  * a functional model of the boundary adapter (validation and response
    encoding), and
  * a small-step transition system for one batch run (the fetcher
    goroutines, the per-batch semaphore, the channels and the wait
    group), plus a separate transition system for the system-wide
    admission semaphore.
-/

/-! ### Constants (`src/main.go`, lines 17-25) -/

def ServerPort : Nat := 62985

def MaxSimultaneousRequests : Nat := 100

def MaxURLs : Nat := 20

def MaxSimultaneousConnectionsPerRequest : Nat := 4

/-- `const MaxBodySize = MaxURLs*(2048+4) + 3`: the handler reads at most
this many bytes of the request body (`io.LimitReader(r.Body, MaxBodySize)`). -/
def MaxBodySize : Nat := MaxURLs * (2048 + 4) + 3

/-! ### Data model (`src/main.go`, lines 27-32) -/

/-- `type URL string`. -/
abbrev URL := String

/-- `type Job struct { URL URL; Status int }`.  In Go, `Status` is an `int`
that defaults to `0` until the assigned fetcher writes the response status
code into it (`job.Status = res.StatusCode`, line 138). -/
structure Job where
  url : URL
  status : Nat
deriving DecidableEq, Repr

/-! ### Boundary adapter: body size accounting and validation

The handler body (lines 45-62) reads the body through a `LimitReader`,
unmarshals it into `[]URL`, and rejects the request with
`setClientError` when `len(urls) > MaxURLs`.  JSON decoding itself is Go
standard library plumbing; we model the handler from the decoded URL
list onward, and model the encoded byte length of a decoded list (the
quantity the `LimitReader` truncates) for the body-size accounting. -/

/-- Length in bytes of the JSON encoding `["u1","u2",...]` of a URL list:
two brackets, two quotes per URL, one comma between consecutive URLs.
This is the size of the body a client sends for a given decoded list
(URLs without characters needing JSON escapes). -/
def encodedBodyLen (urls : List URL) : Nat :=
  2 + (urls.map (fun u => u.length + 2)).sum + (urls.length - 1)

/-- The error message of `fmt.Errorf` on line 57 (typo as in the source). -/
def tooManyMsg : String := "there is to much urls, please send no more than 20"

/-- Outcome of the handler's decode/validate phase: either
`setClientError` (HTTP 404 plus the error text, lines 143-149) before any
`Job` is created, or proceeding to spawn one `Job` and one `fetchURL`
goroutine per URL (lines 64-77). -/
inductive HandlerResult where
  | clientError (msg : String)
  | launch (urls : List URL)
deriving DecidableEq, Repr

/-- Validation performed on the decoded URL list (lines 55-62): the only
check is `len(urls) > MaxURLs`; there is no per-URL check of any kind. -/
def handleDecoded (urls : List URL) : HandlerResult :=
  if urls.length > MaxURLs then .clientError tooManyMsg
  else .launch urls

/-- The identifiers that get a `Job` (and a fetcher goroutine): one per
URL in the `launch` case (lines 73-77), none when validation failed. -/
def jobsOf : HandlerResult → List URL
  | .clientError _ => []
  | .launch urls => urls

/-! ### Batch transition system

One batch run, after `launch`: the handler has spawned `n` `fetchURL`
goroutines (one per URL, in input order), the waiter goroutine, and sits
in the `select` (lines 84-95).  We model each goroutine's control point
and the shared state:

  * a fetcher is `idle` before `sem <- struct{}{}` (line 120) succeeds,
    `running` while holding a per-batch slot and performing
    `http.NewRequest` / `client.Do` (lines 125-130), `sendErr` while
    blocked sending its error on the unbuffered `errChan`
    (lines 127, 132), and `exited` after returning (the deferred
    `<-sem` on line 121 having released its slot);
  * a fetcher whose call succeeds writes `job.Status` and calls
    `wg.Done()` (lines 138-139); a fetcher whose call fails sends on
    `errChan` and returns WITHOUT calling `wg.Done()`;
  * the waiter goroutine (lines 79-82) is `waiting` inside `wg.Wait()`,
    `sendFin` while blocked sending on `finChan`, and `finished` after
    its send was received;
  * the handler is `selecting` inside the `select`, and moves to
    `respondedErr` on receiving from `errChan` (it then returns; nothing
    ever reads `errChan` or `finChan` again) or to `respondedOk` on
    receiving from `finChan` (it then writes the 200 response).

A fetcher's slot release is modeled atomically with its last action (the
deferred `<-sem` runs when the function returns).  Success and failure
of the outbound call are nondeterministic, which covers network errors,
timeouts and cancellation of the request context alike.  The source
contains no statement that cancels a context: line 86 reads
`r.Context().Done()`, which merely returns the context's done channel
and has no effect, so the model has no orchestrator-cancellation event. -/

/-- Control point of one `fetchURL` goroutine. -/
inductive FState where
  | idle
  | running
  | sendErr
  | exited
deriving DecidableEq, Repr

/-- Control point of the waiter goroutine (lines 79-82). -/
inductive WState where
  | waiting
  | sendFin
  | finished
deriving DecidableEq, Repr

/-- Control point of the handler's `select` (lines 84-95). -/
inductive HState where
  | selecting
  | respondedOk
  | respondedErr
deriving DecidableEq, Repr

/-- State of one batch run with its spawned goroutines. -/
structure BState where
  fetchers : List FState
  statuses : List (Option Nat)
  wgCount : Nat
  waiter : WState
  handler : HState
deriving DecidableEq, Repr

/-- A fetcher holds a per-batch semaphore slot from the success of
`sem <- struct{}{}` until its function returns (deferred `<-sem`). -/
def holdsSlot : FState → Bool
  | .running => true
  | .sendErr => true
  | _ => false

/-- Occupancy of the per-batch semaphore `urlSemaphore`. -/
def semHeld (s : BState) : Nat := s.fetchers.countP holdsSlot

/-- Number of jobs whose status has been written. -/
def countSet (s : BState) : Nat := s.statuses.countP Option.isSome

/-- Initial state of a batch of `n` URLs: `n` spawned fetchers, no status
written, `wg.Add(len(urls))` (line 69), waiter in `wg.Wait()`, handler in
the `select`. -/
def initB (n : Nat) : BState :=
  ⟨List.replicate n .idle, List.replicate n none, n, .waiting, .selecting⟩

/-- One interleaving step of a batch run. -/
inductive Step : BState → BState → Prop
  /-- `sem <- struct{}{}` (line 120) succeeds: the buffered channel has
  capacity `MaxSimultaneousConnectionsPerRequest`, so the send completes
  exactly when fewer than that many slots are held. -/
  | acquire (s : BState) (i : Nat)
      (h : s.fetchers[i]? = some .idle)
      (hsem : semHeld s < MaxSimultaneousConnectionsPerRequest) :
      Step s ⟨s.fetchers.set i .running, s.statuses, s.wgCount, s.waiter, s.handler⟩
  /-- The outbound call returns a response with status `code`: the fetcher
  writes `job.Status = res.StatusCode`, calls `wg.Done()` and returns,
  releasing its slot (lines 136-140 and the defer on line 121). -/
  | succeed (s : BState) (i : Nat) (code : Nat)
      (h : s.fetchers[i]? = some .running) :
      Step s ⟨s.fetchers.set i .exited, s.statuses.set i (some code),
        s.wgCount - 1, s.waiter, s.handler⟩
  /-- `http.NewRequest` or `client.Do` returns an error (network failure,
  timeout, or cancelled request context): the fetcher starts sending the
  error on the unbuffered `errChan` (lines 125-133) without touching
  `job.Status` and without calling `wg.Done()`; the send blocks until a
  receiver arrives. -/
  | fail (s : BState) (i : Nat)
      (h : s.fetchers[i]? = some .running) :
      Step s ⟨s.fetchers.set i .sendErr, s.statuses, s.wgCount, s.waiter, s.handler⟩
  /-- The handler's `select` receives from `errChan` (line 85): the
  rendezvous completes, the fetcher returns (releasing its slot), and the
  handler calls `setClientError` and returns. -/
  | recvErr (s : BState) (i : Nat)
      (h : s.fetchers[i]? = some .sendErr)
      (hh : s.handler = .selecting) :
      Step s ⟨s.fetchers.set i .exited, s.statuses, s.wgCount, s.waiter, .respondedErr⟩
  /-- `wg.Wait()` returns (the counter reached zero) and the waiter starts
  sending on `finChan` (lines 80-81). -/
  | waiterFin (s : BState)
      (h : s.waiter = .waiting)
      (hw : s.wgCount = 0) :
      Step s ⟨s.fetchers, s.statuses, s.wgCount, .sendFin, s.handler⟩
  /-- The handler's `select` receives from `finChan` (line 89) and writes
  the 200 response with the encoded job list (lines 92-94). -/
  | recvFin (s : BState)
      (h : s.waiter = .sendFin)
      (hh : s.handler = .selecting) :
      Step s ⟨s.fetchers, s.statuses, s.wgCount, .finished, .respondedOk⟩

/-- States a batch of `n` URLs can reach from its initial state. -/
inductive Reachable (n : Nat) : BState → Prop
  | init : Reachable n (initB n)
  | step {s s' : BState} : Reachable n s → Step s s' → Reachable n s'

/-- The job list as the handler builds and encodes it: one `Job` per URL
in input order (lines 73-75), status defaulting to the Go zero value `0`
until written. -/
def mkJobs (urls : List URL) (statuses : List (Option Nat)) : List Job :=
  List.zipWith (fun u st => Job.mk u (st.getD 0)) urls statuses

/-- The caller-visible response: `setClientError` sends a single error
text (no job data is ever written on that path, lines 143-149), the
success branch sends the encoded job list. -/
inductive Response where
  | ok (jobs : List Job)
  | errText
deriving DecidableEq, Repr

/-- Response of the handler in a given batch state. -/
def response (urls : List URL) (s : BState) : Option Response :=
  match s.handler with
  | .selecting => none
  | .respondedOk => some (.ok (mkJobs urls s.statuses))
  | .respondedErr => some .errText

/-- HTTP status code written by the handler: `http.StatusOK` on the
success branch (line 92), `404` in `setClientError` (line 146). -/
def httpStatus : HState → Option Nat
  | .selecting => none
  | .respondedOk => some 200
  | .respondedErr => some 404

/-- JSON encoding of one job, mirroring the struct tags on lines 29-32. -/
def encodeJob (j : Job) : String :=
  "\x7b\"url\":\"" ++ j.url ++ "\",\"status\":" ++ toString j.status ++ "\x7d"

/-- JSON encoding of the handler's `jobs` slice (line 93).  `jobs` is a
nil slice exactly when the URL list was empty (the loop on line 73 never
ran `append`), and Go's `json` encodes a nil slice as `null`. -/
def encodeJobs (jobs : List Job) : String :=
  if jobs.isEmpty then "null"
  else "[" ++ String.intercalate "," (jobs.map encodeJob) ++ "]"

/-! ### Batch invariants

The inductive invariant of a batch run of `n` URLs.  `wg` is the wait
group identity: the counter starts at `n` (`wg.Add(len(urls))`) and only
successful fetchers decrement it, once each, exactly when they write
their status.  `unset` records that a status is written only by a
fetcher that has exited via the success path.  `hw` and `hok` record
that the waiter passes `wg.Wait()`, and the handler takes the success
branch, only once the counter reached zero. -/

structure BInv (n : Nat) (s : BState) : Prop where
  lenF : s.fetchers.length = n
  lenS : s.statuses.length = n
  wg : s.wgCount + countSet s = n
  unset : ∀ (i : Nat) (a : FState), s.fetchers[i]? = some a → a ≠ FState.exited →
    s.statuses[i]? = some none
  hw : s.waiter ≠ .waiting → s.wgCount = 0
  hok : s.handler = .respondedOk → s.wgCount = 0
  hsem : semHeld s ≤ MaxSimultaneousConnectionsPerRequest

lemma countSet_lt_of_unset {s : BState} {n i : Nat}
    (lenS : s.statuses.length = n) (h : s.statuses[i]? = some none) :
    countSet s < n := by
  have hle : s.statuses.countP Option.isSome ≤ s.statuses.length :=
    List.countP_le_length Option.isSome
  unfold countSet
  rcases Nat.lt_or_ge (s.statuses.countP Option.isSome) n with hlt | hge
  · exact hlt
  · exfalso
    have heq : s.statuses.countP Option.isSome = s.statuses.length := by omega
    have hall := List.countP_eq_length.mp heq
    rcases List.getElem?_eq_some.mp h with ⟨hi, hget⟩
    have := hall _ (List.getElem_mem hi)
    rw [hget] at this
    simp at this

lemma inv_init (n : Nat) : BInv n (initB n) := by
  refine ⟨?_, ?_, ?_, ?_, ?_, ?_, ?_⟩
  · simp [initB]
  · simp [initB]
  · simp [initB, countSet, List.countP_replicate]
  · intro i a hi _
    have hlt : i < n := by
      rcases List.getElem?_eq_some.mp hi with ⟨hl, _⟩
      simpa [initB] using hl
    simp [initB, List.getElem?_replicate, hlt]
  · intro hc
    simp [initB] at hc
  · intro hc
    simp [initB] at hc
  · simp [initB, semHeld, List.countP_replicate, holdsSlot, MaxSimultaneousConnectionsPerRequest]

lemma inv_step {n : Nat} {s s' : BState} (inv : BInv n s) (st : Step s s') : BInv n s' := by
  cases st with
  | acquire i h hsem =>
    rcases List.getElem?_eq_some.mp h with ⟨hi, hget⟩
    refine ⟨?_, inv.lenS, inv.wg, ?_, inv.hw, inv.hok, ?_⟩
    · simpa using inv.lenF
    · intro j a hj hne
      by_cases hji : j = i
      · subst hji
        exact inv.unset j _ h (by simp)
      · rw [List.getElem?_set_ne (Ne.symm hji)] at hj
        exact inv.unset j a hj hne
    · have hs4 : s.fetchers.countP holdsSlot < 4 := hsem
      show (s.fetchers.set i .running).countP holdsSlot ≤ 4
      rw [List.countP_set _ _ _ _ hi, hget]
      simp [holdsSlot]
      omega
  | succeed i code h =>
    rcases List.getElem?_eq_some.mp h with ⟨hi, hget⟩
    have hstat : s.statuses[i]? = some none := inv.unset i _ h (by simp)
    rcases List.getElem?_eq_some.mp hstat with ⟨hi', hget'⟩
    have hcs : countSet s < n := countSet_lt_of_unset inv.lenS hstat
    have hwg1 : 1 ≤ s.wgCount := by
      have := inv.wg
      omega
    refine ⟨?_, ?_, ?_, ?_, ?_, ?_, ?_⟩
    · simpa using inv.lenF
    · simpa using inv.lenS
    · show s.wgCount - 1 + (s.statuses.set i (some code)).countP Option.isSome = n
      rw [List.countP_set _ _ _ _ hi', hget']
      have hw := inv.wg
      unfold countSet at hw hcs
      simp only [Option.isSome_none, Option.isSome_some, Bool.false_eq_true, if_false, if_true,
        Nat.sub_zero, if_pos]
      omega
    · intro j a hj hne
      by_cases hji : j = i
      · subst hji
        rw [List.getElem?_set_self hi] at hj
        exact absurd (Option.some_injective _ hj).symm hne
      · rw [List.getElem?_set_ne (Ne.symm hji)] at hj
        rw [List.getElem?_set_ne (Ne.symm hji)]
        exact inv.unset j a hj hne
    · intro hc
      have := inv.hw hc
      omega
    · intro hc
      have := inv.hok hc
      omega
    · have h4 : s.fetchers.countP holdsSlot ≤ 4 := inv.hsem
      show (s.fetchers.set i .exited).countP holdsSlot ≤ 4
      rw [List.countP_set _ _ _ _ hi, hget]
      simp [holdsSlot]
      omega
  | fail i h =>
    rcases List.getElem?_eq_some.mp h with ⟨hi, hget⟩
    refine ⟨?_, inv.lenS, inv.wg, ?_, inv.hw, inv.hok, ?_⟩
    · simpa using inv.lenF
    · intro j a hj hne
      by_cases hji : j = i
      · subst hji
        exact inv.unset j _ h (by simp)
      · rw [List.getElem?_set_ne (Ne.symm hji)] at hj
        exact inv.unset j a hj hne
    · have h4 : s.fetchers.countP holdsSlot ≤ 4 := inv.hsem
      have hpos : 0 < s.fetchers.countP holdsSlot :=
        List.countP_pos_iff.mpr ⟨_, List.getElem_mem hi, by rw [hget]; rfl⟩
      show (s.fetchers.set i .sendErr).countP holdsSlot ≤ 4
      rw [List.countP_set _ _ _ _ hi, hget]
      simp [holdsSlot]
      omega
  | recvErr i h hh =>
    rcases List.getElem?_eq_some.mp h with ⟨hi, hget⟩
    refine ⟨?_, inv.lenS, inv.wg, ?_, inv.hw, ?_, ?_⟩
    · simpa using inv.lenF
    · intro j a hj hne
      by_cases hji : j = i
      · subst hji
        rw [List.getElem?_set_self hi] at hj
        exact absurd (Option.some_injective _ hj).symm hne
      · rw [List.getElem?_set_ne (Ne.symm hji)] at hj
        exact inv.unset j a hj hne
    · intro hc
      exact absurd hc (by simp)
    · have h4 : s.fetchers.countP holdsSlot ≤ 4 := inv.hsem
      show (s.fetchers.set i .exited).countP holdsSlot ≤ 4
      rw [List.countP_set _ _ _ _ hi, hget]
      simp [holdsSlot]
      omega
  | waiterFin h hw =>
    exact ⟨inv.lenF, inv.lenS, inv.wg, inv.unset, fun _ => hw, inv.hok, inv.hsem⟩
  | recvFin h hh =>
    have hwg : s.wgCount = 0 := inv.hw (by rw [h]; simp)
    exact ⟨inv.lenF, inv.lenS, inv.wg, inv.unset, fun _ => hwg, fun _ => hwg, inv.hsem⟩

lemma reachable_inv {n : Nat} {s : BState} (h : Reachable n s) : BInv n s := by
  induction h with
  | init => exact inv_init n
  | step _ st ih => exact inv_step ih st

/-- Once the wait-group counter is zero, every job's status has been
written (full completion). -/
lemma all_set_of_wg_zero {n : Nat} {s : BState} (inv : BInv n s) (h : s.wgCount = 0) :
    ∀ i, i < n → ∃ c, s.statuses[i]? = some (some c) := by
  intro i hi
  have heq : s.statuses.countP Option.isSome = s.statuses.length := by
    have hwg := inv.wg
    have hlen := inv.lenS
    unfold countSet at hwg
    omega
  have hall := List.countP_eq_length.mp heq
  have hi' : i < s.statuses.length := by rw [inv.lenS]; exact hi
  have hsome := hall _ (List.getElem_mem hi')
  rcases Option.isSome_iff_exists.mp hsome with ⟨c, hc⟩
  exact ⟨c, by rw [List.getElem?_eq_getElem hi', hc]⟩

/-! ### Admission gate transition system

`reqSemaphore := make(chan struct{}, MaxSimultaneousRequests)` (line 35).
Every handler invocation starts with `reqSemaphore <- struct{}{}`
(line 40), which blocks while the buffered channel is full, and installs
`defer func() { <-reqSemaphore }()` (line 41), so the slot is released
when the handler returns on every path (read error, validation error,
fetch error, success).  We model the gate by the number of handlers
holding a slot and the number blocked in the acquire. -/

structure GateState where
  running : Nat
  pending : Nat
deriving DecidableEq, Repr

/-- One step of the admission gate: a request arrives (and blocks in the
channel send), a blocked request enters when the channel is not full, or
a handler returns and its deferred receive frees a slot. -/
inductive GStep : GateState → GateState → Prop
  | arrive (g : GateState) : GStep g ⟨g.running, g.pending + 1⟩
  | enter (g : GateState) (hp : 1 ≤ g.pending)
      (hc : g.running < MaxSimultaneousRequests) :
      GStep g ⟨g.running + 1, g.pending - 1⟩
  | leave (g : GateState) (hr : 1 ≤ g.running) :
      GStep g ⟨g.running - 1, g.pending⟩

/-- Gate states reachable from server start (empty channel, no waiter). -/
inductive GReachable : GateState → Prop
  | init : GReachable ⟨0, 0⟩
  | step {g g' : GateState} : GReachable g → GStep g g' → GReachable g'

/-- The channel send `reqSemaphore <- struct{}{}` can complete for some
blocked request: there is a waiter and the channel is not full. -/
def canEnter (g : GateState) : Prop :=
  1 ≤ g.pending ∧ g.running < MaxSimultaneousRequests

lemma greachable_bound {g : GateState} (h : GReachable g) :
    g.running ≤ MaxSimultaneousRequests := by
  induction h with
  | init => simp
  | step _ st ih =>
    cases st with
    | arrive => simpa using ih
    | enter hp hc => simpa using hc
    | leave hr =>
      show _ - 1 ≤ MaxSimultaneousRequests
      omega

/-! ### Shared completion lemma -/

/-- In any reachable state whose handler took the success branch, the
encoded job list covers every input URL in order, with the status its
fetcher wrote. -/
lemma success_complete {urls : List URL} {s : BState}
    (h : Reachable urls.length s) (hok : s.handler = HState.respondedOk) :
    (mkJobs urls s.statuses).length = urls.length ∧
    ∀ i, i < urls.length → ∃ u c, urls[i]? = some u ∧
      s.statuses[i]? = some (some c) ∧ (mkJobs urls s.statuses)[i]? = some (Job.mk u c) := by
  have inv := reachable_inv h
  have wg0 := inv.hok hok
  have hall := all_set_of_wg_zero inv wg0
  constructor
  · simp [mkJobs, List.length_zipWith, inv.lenS]
  · intro i hi
    rcases hall i hi with ⟨c, hc⟩
    have hu : urls[i]? = some urls[i] := List.getElem?_eq_getElem hi
    refine ⟨urls[i], c, hu, hc, ?_⟩
    simp [mkJobs, List.getElem?_zipWith, hu, hc]

/-! ### Concrete executions -/

/-- Final state of a one-URL batch whose fetch returned status 200. -/
def sOk1 : BState := ⟨[.exited], [some 200], 0, .finished, .respondedOk⟩

lemma reach_sOk1 : Reachable 1 sOk1 := by
  have h0 : Reachable 1 (initB 1) := Reachable.init
  have h1 : Reachable 1 ⟨[.running], [none], 1, .waiting, .selecting⟩ :=
    h0.step (Step.acquire (initB 1) 0 (by decide) (by decide))
  have h2 : Reachable 1 ⟨[.exited], [some 200], 0, .waiting, .selecting⟩ :=
    h1.step (Step.succeed _ 0 200 (by decide))
  have h3 : Reachable 1 ⟨[.exited], [some 200], 0, .sendFin, .selecting⟩ :=
    h2.step (Step.waiterFin _ (by decide) (by decide))
  exact h3.step (Step.recvFin _ (by decide) (by decide))

/-- Final state of a two-URL batch whose fetches both returned 200. -/
def sOk2 : BState := ⟨[.exited, .exited], [some 200, some 200], 0, .finished, .respondedOk⟩

lemma reach_sOk2 : Reachable 2 sOk2 := by
  have h0 : Reachable 2 (initB 2) := Reachable.init
  have h1 : Reachable 2 ⟨[.running, .idle], [none, none], 2, .waiting, .selecting⟩ :=
    h0.step (Step.acquire (initB 2) 0 (by decide) (by decide))
  have h2 : Reachable 2 ⟨[.running, .running], [none, none], 2, .waiting, .selecting⟩ :=
    h1.step (Step.acquire _ 1 (by decide) (by decide))
  have h3 : Reachable 2 ⟨[.exited, .running], [some 200, none], 1, .waiting, .selecting⟩ :=
    h2.step (Step.succeed _ 0 200 (by decide))
  have h4 : Reachable 2 ⟨[.exited, .exited], [some 200, some 200], 0, .waiting, .selecting⟩ :=
    h3.step (Step.succeed _ 1 200 (by decide))
  have h5 : Reachable 2 ⟨[.exited, .exited], [some 200, some 200], 0, .sendFin, .selecting⟩ :=
    h4.step (Step.waiterFin _ (by decide) (by decide))
  exact h5.step (Step.recvFin _ (by decide) (by decide))

/-- State of a two-URL batch right after the handler received fetcher 0's
error and returned (`setClientError`), while fetcher 1 is still
performing its outbound call. -/
def sAbort : BState := ⟨[.exited, .running], [none, none], 2, .waiting, .respondedErr⟩

lemma reach_sAbort : Reachable 2 sAbort := by
  have h0 : Reachable 2 (initB 2) := Reachable.init
  have h1 : Reachable 2 ⟨[.running, .idle], [none, none], 2, .waiting, .selecting⟩ :=
    h0.step (Step.acquire (initB 2) 0 (by decide) (by decide))
  have h2 : Reachable 2 ⟨[.running, .running], [none, none], 2, .waiting, .selecting⟩ :=
    h1.step (Step.acquire _ 1 (by decide) (by decide))
  have h3 : Reachable 2 ⟨[.sendErr, .running], [none, none], 2, .waiting, .selecting⟩ :=
    h2.step (Step.fail _ 0 (by decide))
  exact h3.step (Step.recvErr _ 0 (by decide) (by decide))

/-- State reached from `sAbort` when fetcher 1's call also fails: it is
blocked forever in `errChan <- err` (nothing reads `errChan` after the
handler returned), still holding its per-batch slot. -/
def sStuck : BState := ⟨[.exited, .sendErr], [none, none], 2, .waiting, .respondedErr⟩

lemma reach_sStuck : Reachable 2 sStuck :=
  reach_sAbort.step (Step.fail sAbort 1 (by decide))

/-- One-URL batch whose fetch failed: the fetcher is blocked sending on
`errChan`, the handler still in the `select`. -/
def sErr1 : BState := ⟨[.sendErr], [none], 1, .waiting, .selecting⟩

lemma reach_sErr1 : Reachable 1 sErr1 := by
  have h0 : Reachable 1 (initB 1) := Reachable.init
  have h1 : Reachable 1 ⟨[.running], [none], 1, .waiting, .selecting⟩ :=
    h0.step (Step.acquire (initB 1) 0 (by decide) (by decide))
  exact h1.step (Step.fail _ 0 (by decide))

/-- Six-URL batch with four fetchers holding all four per-batch slots. -/
def sFour : BState :=
  ⟨[.running, .running, .running, .running, .idle, .idle],
    List.replicate 6 none, 6, .waiting, .selecting⟩

lemma reach_sFour : Reachable 6 sFour := by
  have h0 : Reachable 6 (initB 6) := Reachable.init
  have h1 : Reachable 6 ⟨[.running, .idle, .idle, .idle, .idle, .idle],
      List.replicate 6 none, 6, .waiting, .selecting⟩ :=
    h0.step (Step.acquire (initB 6) 0 (by decide) (by decide))
  have h2 : Reachable 6 ⟨[.running, .running, .idle, .idle, .idle, .idle],
      List.replicate 6 none, 6, .waiting, .selecting⟩ :=
    h1.step (Step.acquire _ 1 (by decide) (by decide))
  have h3 : Reachable 6 ⟨[.running, .running, .running, .idle, .idle, .idle],
      List.replicate 6 none, 6, .waiting, .selecting⟩ :=
    h2.step (Step.acquire _ 2 (by decide) (by decide))
  exact h3.step (Step.acquire _ 3 (by decide) (by decide))

/-! ### Claims -/

/-- C1: the caller-visible outcome of a batch is all-or-nothing.  The
handler's response is `none` (still selecting), the single error text of
`setClientError` (which carries no job data by construction of
`Response`), or the full job list; and whenever the response is the job
list, it has one entry per input URL, in input order, each with a status
its fetcher wrote — never a mix of completed and missing results. -/
theorem batch_all_or_nothing (urls : List URL) (s : BState)
    (h : Reachable urls.length s) (jobs : List Job)
    (hok : response urls s = some (Response.ok jobs)) :
    jobs.length = urls.length ∧
    ∀ i, i < urls.length → ∃ u c, urls[i]? = some u ∧
      s.statuses[i]? = some (some c) ∧ jobs[i]? = some (Job.mk u c) := by
  have hh : s.handler = HState.respondedOk := by
    unfold response at hok
    match hcase : s.handler with
    | .selecting => rw [hcase] at hok; exact absurd hok (by simp)
    | .respondedOk => rfl
    | .respondedErr => rw [hcase] at hok; exact absurd hok (by simp)
  have hjobs : jobs = mkJobs urls s.statuses := by
    unfold response at hok
    rw [hh] at hok
    simpa using hok.symm
  subst hjobs
  exact success_complete h hh

theorem batch_all_or_nothing_witness :
    response ["u"] sOk1 = some (Response.ok (mkJobs ["u"] sOk1.statuses)) ∧
    ((mkJobs ["u"] sOk1.statuses).length = (["u"] : List URL).length ∧
      ∀ i, i < (["u"] : List URL).length → ∃ u c, (["u"] : List URL)[i]? = some u ∧
        sOk1.statuses[i]? = some (some c) ∧
        (mkJobs ["u"] sOk1.statuses)[i]? = some (Job.mk u c)) :=
  ⟨rfl, batch_all_or_nothing ["u"] sOk1 reach_sOk1 (mkJobs ["u"] sOk1.statuses) rfl⟩

/-- C2: for a batch of size 1..20 in which every fetch succeeded (the
handler took the success branch, which requires the wait-group counter
to have reached zero, i.e. every fetcher wrote its status), the job list
has the length of the input, preserves the input order, and each job
carries the status code its fetch produced — independently of the order
in which the concurrent fetchers completed, since the jobs are read off
the `jobs` slice built in input order on lines 73-75. -/
theorem batch_success_ordered (urls : List URL) (s : BState)
    (hn1 : 1 ≤ urls.length) (hn2 : urls.length ≤ MaxURLs)
    (h : Reachable urls.length s) (hok : s.handler = HState.respondedOk) :
    (mkJobs urls s.statuses).length = urls.length ∧
    ∀ i, i < urls.length → ∃ u c, urls[i]? = some u ∧
      s.statuses[i]? = some (some c) ∧ (mkJobs urls s.statuses)[i]? = some (Job.mk u c) :=
  success_complete h hok

theorem batch_success_ordered_witness :
    1 ≤ (["a", "b"] : List URL).length ∧ (["a", "b"] : List URL).length ≤ MaxURLs ∧
    sOk2.handler = HState.respondedOk ∧
    ((mkJobs ["a", "b"] sOk2.statuses).length = (["a", "b"] : List URL).length ∧
      ∀ i, i < (["a", "b"] : List URL).length → ∃ u c, (["a", "b"] : List URL)[i]? = some u ∧
        sOk2.statuses[i]? = some (some c) ∧
        (mkJobs ["a", "b"] sOk2.statuses)[i]? = some (Job.mk u c)) :=
  ⟨by decide, by decide, rfl,
    batch_success_ordered ["a", "b"] sOk2 (by decide) (by decide) reach_sOk2 rfl⟩

/-- C5: a decoded batch with more than `MaxURLs = 20` identifiers is
rejected by the check on lines 56-62 with `setClientError` before the
jobs loop (lines 73-77) runs: the result is the validation error and the
set of identifiers that get a `Job` (and hence a fetch) is empty. -/
theorem oversize_batch_rejected (urls : List URL) (h : MaxURLs < urls.length) :
    handleDecoded urls = HandlerResult.clientError tooManyMsg ∧
    jobsOf (handleDecoded urls) = [] := by
  unfold handleDecoded
  rw [if_pos h]
  exact ⟨rfl, rfl⟩

theorem oversize_batch_rejected_witness :
    MaxURLs < (List.replicate 21 ("x" : URL)).length ∧
    handleDecoded (List.replicate 21 "x") = HandlerResult.clientError tooManyMsg ∧
    jobsOf (handleDecoded (List.replicate 21 "x")) = [] :=
  ⟨by decide, oversize_batch_rejected (List.replicate 21 "x") (by decide)⟩

/-- C6: within one batch, at most `MaxSimultaneousConnectionsPerRequest
= 4` fetchers hold per-batch slots (and hence perform fetch work) at any
reachable instant, for every batch size `n`. -/
theorem per_batch_concurrency_bound (n : Nat) (s : BState) (h : Reachable n s) :
    semHeld s ≤ MaxSimultaneousConnectionsPerRequest :=
  (reachable_inv h).hsem

theorem per_batch_concurrency_bound_witness :
    semHeld sFour = MaxSimultaneousConnectionsPerRequest ∧
    semHeld sFour ≤ MaxSimultaneousConnectionsPerRequest :=
  ⟨by decide, per_batch_concurrency_bound 6 sFour reach_sFour⟩

/-- C8: an erroring fetcher never calls `wg.Done()` (lines 125-133), so
while an error send is pending on `errChan` the wait-group counter is
nonzero: the waiter cannot be offering on `finChan`, the handler cannot
already be in the success branch, and no step from such a state puts the
handler into the success branch.  Error and completion are therefore
never simultaneously observable, and any tie the error participates in
resolves to the error outcome. -/
theorem error_pending_precludes_success (n : Nat) (s : BState) (i : Nat)
    (h : Reachable n s) (hi : s.fetchers[i]? = some FState.sendErr) :
    s.waiter ≠ WState.sendFin ∧ s.handler ≠ HState.respondedOk ∧
    ∀ s', Step s s' → s'.handler ≠ HState.respondedOk := by
  have inv := reachable_inv h
  have hstat : s.statuses[i]? = some none := inv.unset i _ hi (by simp)
  have hcs : countSet s < n := countSet_lt_of_unset inv.lenS hstat
  have hwpos : 1 ≤ s.wgCount := by
    have := inv.wg
    omega
  have hww : s.waiter = WState.waiting := by
    by_contra hc
    have := inv.hw hc
    omega
  have hhh : s.handler ≠ HState.respondedOk := by
    intro hc
    have := inv.hok hc
    omega
  refine ⟨by rw [hww]; simp, hhh, ?_⟩
  intro s' st
  cases st with
  | acquire j h2 hsem => exact hhh
  | succeed j code h2 => exact hhh
  | fail j h2 => exact hhh
  | recvErr j h2 hh2 => simp
  | waiterFin h2 hw2 => exact absurd hw2 (by omega)
  | recvFin h2 hh2 => simp [hww] at h2

theorem error_pending_precludes_success_witness :
    sErr1.fetchers[0]? = some FState.sendErr ∧
    (sErr1.waiter ≠ WState.sendFin ∧ sErr1.handler ≠ HState.respondedOk ∧
      ∀ s', Step sErr1 s' → s'.handler ≠ HState.respondedOk) :=
  ⟨by decide, error_pending_precludes_success 1 sErr1 0 reach_sErr1 (by decide)⟩

/-- C3: the claim that every spawned fetcher eventually releases its slot
and terminates FAILS on the code.  `sStuck` is reachable (batch of two
URLs, both fetches fail: the handler consumes the first error and
returns; the second fetcher then blocks in `errChan <- err` on the
unbuffered channel, which nothing reads any more).  `sStuck` has no
outgoing step at all: fetcher 1 is permanently blocked before its
deferred `<-sem` can run, so one per-batch slot stays held and one
goroutine never terminates. -/
theorem leaked_fetcher_holds_slot_forever :
    Reachable 2 sStuck ∧
    sStuck.fetchers[1]? = some FState.sendErr ∧
    semHeld sStuck = 1 ∧
    ∀ s', ¬ Step sStuck s' := by
  refine ⟨reach_sStuck, by decide, by decide, ?_⟩
  intro s' st
  cases st with
  | acquire i h hsem =>
    rcases i with _ | _ | i <;> simp [sStuck] at h
  | succeed i code h =>
    rcases i with _ | _ | i <;> simp [sStuck] at h
  | fail i h =>
    rcases i with _ | _ | i <;> simp [sStuck] at h
  | recvErr i h hh => simp [sStuck] at hh
  | waiterFin h hw => simp [sStuck] at hw
  | recvFin h hh => simp [sStuck] at h

/-- C4: the claim that on a fetcher error the orchestrator propagates a
derived cancellation making the other in-flight fetchers abort without
writing a status FAILS on the code.  Line 86 `r.Context().Done()` only
returns the context's done channel and cancels nothing; no derived
context exists.  From the reachable abort state `sAbort` (handler
already returned with the error, fetcher 1 still in flight), fetcher 1
can complete its outbound call and write status 200 into its job; and if
it errors instead, it reaches the permanently blocked state `sStuck`
where its slot is never released. -/
theorem no_derived_cancellation_on_error :
    Reachable 2 sAbort ∧
    sAbort.handler = HState.respondedErr ∧
    sAbort.fetchers[1]? = some FState.running ∧
    sAbort.statuses[1]? = some none ∧
    Step sAbort ⟨[.exited, .exited], [none, some 200], 1, .waiting, .respondedErr⟩ ∧
    (⟨[.exited, .exited], [none, some 200], 1, .waiting, .respondedErr⟩ : BState).statuses[1]?
      = some (some 200) ∧
    Step sAbort sStuck ∧ holdsSlot FState.sendErr = true :=
  ⟨reach_sAbort, rfl, by decide, by decide,
    Step.succeed sAbort 1 200 (by decide), by decide,
    Step.fail sAbort 1 (by decide), rfl⟩

/-- C7: at most `MaxSimultaneousRequests = 100` handler invocations hold
an admission slot at any reachable instant; when all 100 slots are held
and a request is blocked in the acquire, no admission is possible, while
a handler return (`leave`, the deferred `<-reqSemaphore`, which runs on
every termination path) is, after which the blocked request's acquire
can complete. -/
theorem admission_gate_bound (g : GateState) (h : GReachable g) :
    g.running ≤ MaxSimultaneousRequests ∧
    (g.running = MaxSimultaneousRequests → 1 ≤ g.pending →
      ¬ canEnter g ∧
      GStep g ⟨g.running - 1, g.pending⟩ ∧
      canEnter ⟨g.running - 1, g.pending⟩ ∧
      GStep (⟨g.running - 1, g.pending⟩ : GateState) ⟨g.running, g.pending - 1⟩) := by
  have h100 : MaxSimultaneousRequests = 100 := rfl
  refine ⟨greachable_bound h, ?_⟩
  intro hfull hp
  refine ⟨?_, ?_, ?_, ?_⟩
  · intro hc
    rcases hc with ⟨_, hlt⟩
    omega
  · exact GStep.leave g (by omega)
  · exact ⟨hp, by show g.running - 1 < MaxSimultaneousRequests; omega⟩
  · have st := GStep.enter ⟨g.running - 1, g.pending⟩ hp
      (by show g.running - 1 < MaxSimultaneousRequests; omega)
    have h99 : g.running - 1 + 1 = g.running := by omega
    rw [h99] at st
    exact st

/-- The full gate: `MaxSimultaneousRequests` handlers admitted, one more
request blocked in the channel send. -/
def gFull : GateState := ⟨MaxSimultaneousRequests, 1⟩

lemma greach_upto (k : Nat) (hk : k ≤ MaxSimultaneousRequests) :
    GReachable ⟨k, 0⟩ := by
  induction k with
  | zero => exact GReachable.init
  | succ k ih =>
    have h1 : GReachable ⟨k, 0⟩ := ih (by omega)
    have h2 : GReachable ⟨k, 1⟩ := h1.step (GStep.arrive _)
    exact h2.step (GStep.enter _ (by simp) (by show k < MaxSimultaneousRequests; omega))

lemma greach_gFull : GReachable gFull :=
  (greach_upto MaxSimultaneousRequests (Nat.le_refl _)).step (GStep.arrive _)

theorem admission_gate_bound_witness :
    GReachable gFull ∧
    (gFull.running ≤ MaxSimultaneousRequests ∧
      (gFull.running = MaxSimultaneousRequests → 1 ≤ gFull.pending →
        ¬ canEnter gFull ∧
        GStep gFull ⟨gFull.running - 1, gFull.pending⟩ ∧
        canEnter ⟨gFull.running - 1, gFull.pending⟩ ∧
        GStep (⟨gFull.running - 1, gFull.pending⟩ : GateState)
          ⟨gFull.running, gFull.pending - 1⟩)) :=
  ⟨greach_gFull, admission_gate_bound gFull greach_gFull⟩

/-! ### Identifier length (C9) and the empty batch (C10) -/

/-- A 3000-character identifier, longer than the 2048-character URL
length the `MaxBodySize` comment (lines 23-25) accounts for. -/
def longURL : URL := String.mk (List.replicate 3000 'a')

/-- C9 counterexample: a batch consisting of one 3000-character
identifier.  Its encoded body (3004 bytes) is far below `MaxBodySize =
41043`, so the `LimitReader` on line 47 does not truncate it; the only
validation on the decoded list is the `len(urls) > MaxURLs` count check
(lines 55-62), which passes; the batch is launched and the identifier is
fetched.  No per-identifier length check exists anywhere. -/
theorem long_url_not_rejected :
    2048 < longURL.length ∧
    encodedBodyLen [longURL] ≤ MaxBodySize ∧
    handleDecoded [longURL] = HandlerResult.launch [longURL] ∧
    jobsOf (handleDecoded [longURL]) = [longURL] := by
  have hlen : longURL.length = 3000 := by
    have h1 : longURL.length = (List.replicate 3000 'a').length := rfl
    rw [h1, List.length_replicate]
  refine ⟨by omega, ?_, ?_, ?_⟩
  · have he : encodedBodyLen [longURL] = longURL.length + 4 := by
      simp [encodedBodyLen]
      omega
    rw [he, hlen]
    decide
  · unfold handleDecoded
    rw [if_neg (by decide)]
  · unfold handleDecoded
    rw [if_neg (by decide)]
    rfl

/-- C9 amended: identifiers are never individually length-checked.  Any
decoded batch of at most `MaxURLs` identifiers is handed to the
orchestrator and fetched, whatever the length of each identifier; the
only length-related bound in the program is the `MaxBodySize` cap on the
total request body. -/
theorem no_per_url_length_check (urls : List URL) (h : urls.length ≤ MaxURLs) :
    handleDecoded urls = HandlerResult.launch urls ∧
    jobsOf (handleDecoded urls) = urls := by
  unfold handleDecoded
  rw [if_neg (by omega)]
  exact ⟨rfl, rfl⟩

theorem no_per_url_length_check_witness :
    ([longURL] : List URL).length ≤ MaxURLs ∧
    (handleDecoded [longURL] = HandlerResult.launch [longURL] ∧
      jobsOf (handleDecoded [longURL]) = [longURL]) :=
  ⟨by decide, no_per_url_length_check [longURL] (by decide)⟩

/-- Final state of the zero-URL batch: `wg.Add(0)` leaves the counter at
zero, so the waiter goroutine sends on `finChan` immediately and the
handler takes the success branch without any fetcher existing. -/
def emptyFinal : BState := ⟨[], [], 0, .finished, .respondedOk⟩

/-- C10: the empty batch (`[]`, zero identifiers) is accepted: it passes
the count check, spawns zero fetchers, reaches the success branch, and
the handler writes HTTP 200 with body `null` — the `jobs` slice is nil
because the loop on lines 73-77 never appended to it, and Go's JSON
encoder renders a nil slice as `null`. -/
theorem empty_batch_with_null_body :
    handleDecoded [] = HandlerResult.launch [] ∧
    (initB 0).fetchers = [] ∧
    Reachable 0 emptyFinal ∧
    response [] emptyFinal = some (Response.ok []) ∧
    httpStatus emptyFinal.handler = some 200 ∧
    encodeJobs (mkJobs [] emptyFinal.statuses) = "null" := by
  refine ⟨rfl, rfl, ?_, rfl, rfl, rfl⟩
  have h0 : Reachable 0 (initB 0) := Reachable.init
  have h1 : Reachable 0 ⟨[], [], 0, .sendFin, .selecting⟩ :=
    h0.step (Step.waiterFin _ rfl rfl)
  exact h1.step (Step.recvFin _ rfl rfl)
